import Mathlib

/-!
Verification development for the Baileys WhatsApp API gateway.

The repository's visible source is the HTTP glue layer (`src/app.ts`);
the session-orchestration core (SessionRegistry, ConnectionSupervisor,
EventDispatcher, OutboundMessageQueue) is specified in the design
document but its implementation is not part of the visible sources, so
those components are modelled from the specification text and the
claims about them are settled against the model.  The HTTP layer
(route mounting, health handler, rate limiter) is embedded directly
from `src/app.ts`.
-/

namespace BaylesApi

/-! ### HTTP layer, embedded from `src/app.ts` -/

/-- Route-level handlers mounted in `app.ts` (lines 100-157). -/
inductive Handler
  | apiDocs
  | health
  | authRoutes
  | sessionRoutes
  | messageRoutes
  | chatRoutes
  | groupRoutes
  | contactRoutes
  | mediaRoutes
  | businessRoutes
  | webhookRoutes
  | dashboardRoutes
  | staticFiles
  | rootRedirect
  deriving DecidableEq, Repr

/-- One `app.use(path, ...)` registration: mount path segments, whether
`authMiddleware` appears in the middleware list of that call, and the
router mounted there.  Transcribed from `app.ts` lines 100, 103,
140-157 in registration order. -/
structure RouteMount where
  segs : List String
  requiresAuth : Bool
  handler : Handler
  deriving DecidableEq, Repr

/-- The route registrations of `app.ts` in source order:
`/api-docs` (line 100), `/health` (line 103), `/api/auth` (140),
`/api/sessions` .. `/api/webhooks` with `authMiddleware` (141-148),
`/dashboard` (149), `/static` (152), `/` (155). -/
def routeMounts : List RouteMount :=
  [ ⟨["api-docs"], false, .apiDocs⟩
  , ⟨["health"], false, .health⟩
  , ⟨["api", "auth"], false, .authRoutes⟩
  , ⟨["api", "sessions"], true, .sessionRoutes⟩
  , ⟨["api", "messages"], true, .messageRoutes⟩
  , ⟨["api", "chats"], true, .chatRoutes⟩
  , ⟨["api", "groups"], true, .groupRoutes⟩
  , ⟨["api", "contacts"], true, .contactRoutes⟩
  , ⟨["api", "media"], true, .mediaRoutes⟩
  , ⟨["api", "business"], true, .businessRoutes⟩
  , ⟨["api", "webhooks"], true, .webhookRoutes⟩
  , ⟨["dashboard"], false, .dashboardRoutes⟩
  , ⟨["static"], false, .staticFiles⟩
  , ⟨[], false, .rootRedirect⟩ ]

/-- Express prefix matching: a mount matches a request path iff the
mount's segments are an initial segment of the request's segments. -/
def mountMatches (m : RouteMount) (path : List String) : Bool :=
  decide (path.take m.segs.length = m.segs)

/-- Express resolves a request to the first registered mount whose
path is a prefix of the request path (registration order of
`app.ts`). -/
def resolveMount (path : List String) : Option RouteMount :=
  routeMounts.find? (fun m => mountMatches m path)

/-- Rate limiter window from `app.ts` line 80: 15 minutes in ms. -/
def rateLimitWindowMs : Nat := 15 * 60 * 1000

/-- Rate limiter ceiling from `app.ts` line 81. -/
def rateLimitMax : Nat := 100

/-- Rate limiter rejection message from `app.ts` line 82. -/
def rateLimitMessage : String :=
  "Too many requests from this IP, please try again later."

/-- An HTTP request as the embedded pipeline sees it: its path split
into segments, whether the `X-API-Key` it carries passes
`authMiddleware`, and how many requests this IP has already made in
the current rate-limit window. -/
structure HttpRequest where
  segs : List String
  apiKeyValid : Bool
  priorHitsInWindow : Nat
  deriving DecidableEq, Repr

/-- Outcome of running a request through the embedded pipeline. -/
inductive Outcome
  | rateLimited (msg : String)
  | unauthorized
  | handled (h : Handler)
  | fallthrough
  deriving DecidableEq, Repr

/-- The request pipeline of `app.ts`: the global `limiter` (line 97)
runs before every route registration (lines 100-157); `express-rate-limit`
increments the per-IP counter and rejects with the configured message
once the count exceeds `max`; otherwise the first matching mount runs,
its `authMiddleware` (if mounted) rejecting requests whose API key is
invalid before the router handler is reached. -/
def processRequest (req : HttpRequest) : Outcome :=
  if rateLimitMax ≤ req.priorHitsInWindow then
    .rateLimited rateLimitMessage
  else
    match resolveMount req.segs with
    | none => .fallthrough
    | some m =>
      if m.requiresAuth && !req.apiKeyValid then .unauthorized
      else .handled m.handler

/-! ### Health endpoint, embedded from `app.ts` lines 103-137 -/

/-- State of the database dependency as the `/health` handler can
observe it: the service reference is absent, the health check
resolves, or the health check throws. -/
inductive DbCheck
  | noService
  | healthy
  | throws
  deriving DecidableEq, Repr

/-- The fields of the `/health` response the claims are about. -/
structure HealthResponse where
  httpStatus : Nat
  bodyStatus : String
  database : Option String
  deriving DecidableEq, Repr

/-- The `/health` handler from `app.ts` lines 103-137: the outer `try`
assembles the health object (modelled by the flag `assembleThrows` for
a throw while building it); the inner `try` around
`databaseService.healthCheck()` downgrades a database failure to
`status: degraded` / `database: disconnected` but still responds 200;
only the outer `catch` responds 503. -/
def healthHandler (assembleThrows : Bool) (db : DbCheck) : HealthResponse :=
  if assembleThrows then ⟨503, "error", none⟩
  else
    match db with
    | .noService => ⟨200, "ok", none⟩
    | .healthy => ⟨200, "ok", some "connected"⟩
    | .throws => ⟨200, "degraded", some "disconnected"⟩

/-! ### Middleware registration order, embedded from `app.ts` -/

/-- The `app.use`/`app.get` registrations of `app.ts` in source order
(lines 88-160), used to state which registrations come after the rate
limiter. -/
inductive Registration
  | helmet
  | compression
  | corsMw
  | morgan
  | jsonParser
  | urlencodedParser
  | limiter
  | apiDocsMount
  | healthRoute
  | authMount
  | sessionsMount
  | messagesMount
  | chatsMount
  | groupsMount
  | contactsMount
  | mediaMount
  | businessMount
  | webhooksMount
  | dashboardMount
  | staticMount
  | rootRoute
  | errorHandlerMw
  deriving DecidableEq, Repr

/-- Source order of registrations in `app.ts` lines 88-160. -/
def registrationOrder : List Registration :=
  [ .helmet, .compression, .corsMw, .morgan, .jsonParser, .urlencodedParser
  , .limiter
  , .apiDocsMount, .healthRoute
  , .authMount, .sessionsMount, .messagesMount, .chatsMount, .groupsMount
  , .contactsMount, .mediaMount, .businessMount, .webhooksMount
  , .dashboardMount, .staticMount, .rootRoute, .errorHandlerMw ]

/-! ### Session orchestration core, modelled from the specification

The implementation of the orchestration core is not among the visible
sources; the definitions below are modelled from the design document
(sections 4.1, 4.2) and clearly marked as such. -/

/-- Modelled from the spec: the ConnectionSupervisor state machine
states of section 4.2, with `LOGGED_OUT` and `TERMINATED` terminal. -/
inductive SessState
  | INITIALIZING
  | PAIRING
  | CONNECTED
  | RECONNECTING
  | LOGGED_OUT
  | TERMINATED
  deriving DecidableEq, Repr

/-- Modelled from the spec: terminal states of section 4.2. -/
def SessState.isTerminal : SessState → Bool
  | .LOGGED_OUT => true
  | .TERMINATED => true
  | _ => false

/-- Modelled from the spec: the error taxonomy of section 7. -/
inductive SessError
  | AlreadyActive
  | NotFound
  | SessionNotConnected
  | QueueFull
  | PairingTimeout
  | PairingRejected
  | TransportDisconnected
  | LoggedOutByRemote
  | ReconnectAttemptsExhausted
  | DeliveryExhausted
  deriving DecidableEq, Repr

/-- Modelled from the spec: the supervisor transitions allowed by the
section 4.2 state machine (excluding the explicit-stop transition,
which is a registry operation): `INITIALIZING` moves to `PAIRING` (no
credentials) or directly to `CONNECTED` (valid credentials);
`PAIRING` to `CONNECTED` (confirmed) or `TERMINATED` (timeout or
rejection); `CONNECTED` to `RECONNECTING` (transport disconnect) or
`LOGGED_OUT`; `RECONNECTING` to `CONNECTED`, `LOGGED_OUT`, or
`TERMINATED` (attempts exhausted).  Terminal states have no outgoing
transitions. -/
def allowedTransition : SessState → SessState → Bool
  | .INITIALIZING, .PAIRING => true
  | .INITIALIZING, .CONNECTED => true
  | .PAIRING, .CONNECTED => true
  | .PAIRING, .TERMINATED => true
  | .CONNECTED, .RECONNECTING => true
  | .CONNECTED, .LOGGED_OUT => true
  | .RECONNECTING, .CONNECTED => true
  | .RECONNECTING, .LOGGED_OUT => true
  | .RECONNECTING, .TERMINATED => true
  | _, _ => false

/-- Modelled from the spec: one registered ConnectionSupervisor — the
tenant that owns it, its current state, and whether its stored
credentials have been invalidated (stop with logout discards them,
plain stop retains them; section 4.1/4.2). -/
structure Supervisor where
  tenant : String
  state : SessState
  credsDiscarded : Bool
  deriving DecidableEq, Repr

/-- Modelled from the spec: the SessionRegistry of section 4.1 — the
collection of supervisors it has registered.  Registration history is
kept as a list so that the at-most-one-active-supervisor-per-tenant
invariant is a provable property of the operations rather than a
consequence of the representation. -/
structure Registry where
  sups : List Supervisor
  deriving DecidableEq, Repr

/-- The empty registry at process start. -/
def Registry.init : Registry := ⟨[]⟩

/-- A supervisor is active when its state is not terminal. -/
def Supervisor.isActive (s : Supervisor) : Bool :=
  !s.state.isTerminal

/-- Whether an active (non-terminal) supervisor for `tenant` is
registered. -/
def Registry.hasActive (reg : Registry) (tenant : String) : Bool :=
  reg.sups.any (fun s => decide (s.tenant = tenant) && s.isActive)

/-- Modelled from the spec: `startSession(tenantId, options)` of
section 4.1 — fails with `AlreadyActive` if a supervisor is already
registered for the tenant and not in a terminal state; otherwise
registers a fresh ConnectionSupervisor and returns immediately with
state `INITIALIZING`. -/
def Registry.startSession (reg : Registry) (tenant : String) :
    Except SessError (Registry × SessState) :=
  if reg.hasActive tenant = true then .error .AlreadyActive
  else .ok (⟨⟨tenant, .INITIALIZING, false⟩ :: reg.sups⟩, .INITIALIZING)

/-- Modelled from the spec: `stopSession(tenantId, {logout})` of
section 4.1 — signals the tenant's active supervisor to disconnect
(any state may move to `TERMINATED` on explicit stop, section 4.2);
if `logout` is set the stored credentials are also invalidated.
Idempotent: with no active supervisor for the tenant it is a no-op
and returns no error. -/
def Registry.stopSession (reg : Registry) (tenant : String) (logout : Bool) :
    Except SessError Registry :=
  .ok ⟨reg.sups.map (fun s =>
    if (decide (s.tenant = tenant) && s.isActive) = true then
      { s with state := .TERMINATED, credsDiscarded := s.credsDiscarded || logout }
    else s)⟩

/-- Modelled from the spec: an internal supervisor transition for
`tenant` toward `next` — applied to the tenant's active supervisors
when the section 4.2 state machine allows it, otherwise a no-op. -/
def Registry.internalStep (reg : Registry) (tenant : String) (next : SessState) :
    Registry :=
  ⟨reg.sups.map (fun s =>
    if (decide (s.tenant = tenant) && s.isActive && allowedTransition s.state next) = true then
      { s with state := next }
    else s)⟩

/-- Lifecycle operations that drive the registry: the section 4.1
control-surface calls plus internal supervisor transitions. -/
inductive RegOp
  | start (tenant : String)
  | stop (tenant : String) (logout : Bool)
  | internal (tenant : String) (next : SessState)

/-- Apply one lifecycle operation (a failed `startSession` leaves the
registry unchanged). -/
def Registry.applyOp (reg : Registry) : RegOp → Registry
  | .start t =>
    match reg.startSession t with
    | .ok (r, _) => r
    | .error _ => reg
  | .stop t logout =>
    match reg.stopSession t logout with
    | .ok r => r
    | .error _ => reg
  | .internal t next => reg.internalStep t next

/-- The registry reached by running a sequence of lifecycle operations
from process start. -/
def Registry.run (ops : List RegOp) : Registry :=
  ops.foldl Registry.applyOp Registry.init

/-- Number of active supervisors registered for a tenant. -/
def Registry.activeCount (reg : Registry) (tenant : String) : Nat :=
  reg.sups.countP (fun s => decide (s.tenant = tenant) && s.isActive)

/-! ### Reconnection policy, modelled from the spec (sections 4.2, 8) -/

/-- Modelled from the spec: the first-class reconnect configuration of
section 9 — base delay, capped maximum delay, maximum attempt count. -/
structure ReconnectPolicy where
  baseDelayMs : Nat
  maxDelayMs : Nat
  maxAttempts : Nat
  deriving DecidableEq, Repr

/-- Modelled from the spec: exponential backoff with a capped maximum
(section 4.2) — the delay before reconnect attempt `n`. -/
def reconnectDelay (p : ReconnectPolicy) (n : Nat) : Nat :=
  min (p.baseDelayMs * 2 ^ n) p.maxDelayMs

/-- Modelled from the spec: the part of the supervisor state the
reconnect loop drives — current state, attempt counter, and the fatal
error reported on the terminal path. -/
structure ReconnState where
  state : SessState
  attempts : Nat
  fatalError : Option SessError
  deriving DecidableEq, Repr

/-- Modelled from the spec: one round of the reconnect loop (sections
4.2 and 8).  Outside `RECONNECTING` it does nothing; once the
configured maximum attempt count has been used up, the session moves
to `TERMINATED` with `ReconnectAttemptsExhausted`; otherwise one
reconnect attempt is made, moving to `CONNECTED` on success and
incrementing the attempt counter on failure. -/
def reconnectStep (p : ReconnectPolicy) (connectSucceeds : Bool)
    (s : ReconnState) : ReconnState :=
  if s.state ≠ SessState.RECONNECTING then s
  else if p.maxAttempts ≤ s.attempts then
    ⟨.TERMINATED, s.attempts, some .ReconnectAttemptsExhausted⟩
  else if connectSucceeds then ⟨.CONNECTED, 0, none⟩
  else ⟨.RECONNECTING, s.attempts + 1, s.fatalError⟩

/-- Run `k` rounds of the reconnect loop; `oracle n` tells whether the
attempt made with attempt counter `n` succeeds. -/
def runReconnect (p : ReconnectPolicy) (oracle : Nat → Bool) :
    Nat → ReconnState → ReconnState
  | 0, s => s
  | k + 1, s => runReconnect p oracle k (reconnectStep p (oracle s.attempts) s)

/-- The state in which a transport disconnect leaves the supervisor:
`RECONNECTING` with a fresh attempt counter. -/
def reconnectEntry : ReconnState := ⟨.RECONNECTING, 0, none⟩

/-! ### OutboundMessageQueue, modelled from the spec (section 4.4) -/

/-- Modelled from the spec: an outbound send request (section 3). -/
structure OutboundRequest where
  target : String
  content : String
  idempotencyKey : String
  deriving DecidableEq, Repr

/-- Modelled from the spec: one session's bounded outbound FIFO. -/
structure OutQueue where
  buffer : List OutboundRequest
  capacity : Nat
  deriving DecidableEq, Repr

/-- Modelled from the spec: `enqueue(sessionId, request)` of section
4.4 — fails with `SessionNotConnected` if the session is not in
`CONNECTED` state and the caller did not request buffering; otherwise
accepts into the bounded buffer, overflow failing with `QueueFull`. -/
def OutQueue.enqueue (q : OutQueue) (sessState : SessState)
    (allowBuffering : Bool) (r : OutboundRequest) :
    Except SessError OutQueue :=
  if sessState ≠ SessState.CONNECTED ∧ allowBuffering = false then
    .error .SessionNotConnected
  else if q.capacity ≤ q.buffer.length then .error .QueueFull
  else .ok ⟨q.buffer ++ [r], q.capacity⟩

/-! ### EventDispatcher, modelled from the spec (section 4.3) -/

/-- Modelled from the spec: one registered consumer of a session's
event stream (persistence sink, webhook queue, or broadcaster) — its
bounded pending queue of sequence numbers, the sequence numbers it
has observed so far (in observation order), and the dropped-events
counter of section 4.3. -/
structure ConsumerState where
  capacity : Nat
  pending : List Nat
  observed : List Nat
  dropped : Nat
  deriving DecidableEq, Repr

/-- A fresh consumer with the given bounded-buffer capacity. -/
def ConsumerState.init (cap : Nat) : ConsumerState := ⟨cap, [], [], 0⟩

/-- Modelled from the spec: the dispatcher pushing one event into a
consumer's queue (section 4.3).  If the queue is full, the oldest
pending item for that consumer is dropped and the dropped-events
counter is incremented; dispatch never blocks on the consumer. -/
def ConsumerState.push (c : ConsumerState) (seq : Nat) : ConsumerState :=
  if c.pending.length < c.capacity then
    ⟨c.capacity, c.pending ++ [seq], c.observed, c.dropped⟩
  else
    match c.pending with
    | [] => ⟨c.capacity, c.pending, c.observed, c.dropped + 1⟩
    | _ :: rest => ⟨c.capacity, rest ++ [seq], c.observed, c.dropped + 1⟩

/-- The consumer asynchronously taking the next queued event: the head
of its pending queue becomes the next event it observes. -/
def ConsumerState.consume (c : ConsumerState) : ConsumerState :=
  match c.pending with
  | [] => c
  | s :: rest => ⟨c.capacity, rest, c.observed ++ [s], c.dropped⟩

/-- Modelled from the spec: one session's dispatcher state — the next
per-session sequence number to assign and the three registered
consumers of section 4.3. -/
structure DispatchState where
  nextSeq : Nat
  persistence : ConsumerState
  webhookQueue : ConsumerState
  broadcaster : ConsumerState
  deriving DecidableEq, Repr

/-- A fresh session dispatcher: sequence numbers start at 1 (the
section 8 pairing scenario emits sequence 1 first). -/
def DispatchState.init (pc wc bc : Nat) : DispatchState :=
  ⟨1, .init pc, .init wc, .init bc⟩

/-- Modelled from the spec: `dispatch(sessionId, event)` of section
4.3 — assigns the event the next per-session sequence number and
pushes it to each registered consumer without waiting for consumer
completion. -/
def DispatchState.dispatch (d : DispatchState) : DispatchState :=
  ⟨d.nextSeq + 1, d.persistence.push d.nextSeq,
   d.webhookQueue.push d.nextSeq, d.broadcaster.push d.nextSeq⟩

/-- Interleaved dispatcher and consumer activity for one session. -/
inductive DispatchOp
  | dispatch
  | consumePersistence
  | consumeWebhook
  | consumeBroadcaster
  deriving DecidableEq, Repr

/-- Apply one dispatcher or consumer step. -/
def DispatchState.applyOp (d : DispatchState) : DispatchOp → DispatchState
  | .dispatch => d.dispatch
  | .consumePersistence => ⟨d.nextSeq, d.persistence.consume, d.webhookQueue, d.broadcaster⟩
  | .consumeWebhook => ⟨d.nextSeq, d.persistence, d.webhookQueue.consume, d.broadcaster⟩
  | .consumeBroadcaster => ⟨d.nextSeq, d.persistence, d.webhookQueue, d.broadcaster.consume⟩

/-- Run a session's dispatcher from the fresh state through a sequence
of dispatch and consume steps. -/
def DispatchState.run (pc wc bc : Nat) (ops : List DispatchOp) : DispatchState :=
  ops.foldl DispatchState.applyOp (DispatchState.init pc wc bc)

/-- The three registered consumers of a session's dispatcher. -/
def DispatchState.consumers (d : DispatchState) : List ConsumerState :=
  [d.persistence, d.webhookQueue, d.broadcaster]

/-- The contiguity property the specification claims for each
consumer: the observed sequence numbers are exactly 1, 2, ... with no
gap — every observed number is preceded by all smaller ones. -/
def eventContiguous (obs : List Nat) : Prop :=
  obs = List.range' 1 obs.length

instance (obs : List Nat) : Decidable (eventContiguous obs) := by
  unfold eventContiguous; infer_instance

/-- Invariant tying one consumer to the dispatcher's next sequence
number `n`: everything the consumer has seen or holds is strictly
ordered and below `n`, and while no event has been dropped for it,
its observed and pending sequence numbers are exactly the contiguous
ranges `1..` and the following block handed out so far. -/
def ConsInv (c : ConsumerState) (n : Nat) : Prop :=
  (c.observed ++ c.pending).Pairwise (· < ·) ∧
  (∀ x ∈ c.observed ++ c.pending, x < n) ∧
  (c.dropped = 0 →
    ∃ lo lp, c.observed = List.range' 1 lo ∧
      c.pending = List.range' (1 + lo) lp ∧
      n = 1 + lo + lp)

/-- The dispatcher invariant: `ConsInv` for each of the three
registered consumers against the shared next sequence number. -/
def DispInv (d : DispatchState) : Prop :=
  ConsInv d.persistence d.nextSeq ∧
  ConsInv d.webhookQueue d.nextSeq ∧
  ConsInv d.broadcaster d.nextSeq

/-! ### Graceful shutdown, embedded from `app.ts` lines 190-208 with
`WhatsAppService.shutdown()` modelled from the spec (section 6) -/

/-- Process-level state the shutdown handlers act on: the session
registry, which tenants have had pending outbound acknowledgments
flushed and latest credentials persisted, and the database / HTTP
server / process-exit status. -/
structure World where
  registry : Registry
  flushedTenants : List String
  persistedTenants : List String
  dbConnected : Bool
  serverListening : Bool
  exited : Bool
  deriving DecidableEq, Repr

/-- Modelled from the spec: `whatsAppService.shutdown()` — every
active ConnectionSupervisor is told to disconnect gracefully: its
pending outbound acknowledgments are flushed, its latest credential
state is persisted, and it terminates (section 6, process
lifecycle). -/
def World.drainSupervisors (w : World) : World :=
  { w with
    registry := ⟨w.registry.sups.map (fun s =>
      if s.isActive = true then { s with state := .TERMINATED } else s)⟩
    flushedTenants :=
      w.flushedTenants ++ (w.registry.sups.filter (·.isActive)).map (·.tenant)
    persistedTenants :=
      w.persistedTenants ++ (w.registry.sups.filter (·.isActive)).map (·.tenant) }

/-- The steps a shutdown handler of `app.ts` can take. -/
inductive ShutdownStep
  | drain
  | dbDisconnect
  | serverClose
  | processExit
  deriving DecidableEq, Repr

/-- Effect of one shutdown step on the world. -/
def World.applyStep (w : World) : ShutdownStep → World
  | .drain => w.drainSupervisors
  | .dbDisconnect => { w with dbConnected := false }
  | .serverClose => { w with serverListening := false }
  | .processExit => { w with exited := true }

/-- Run a sequence of shutdown steps. -/
def World.runSteps (w : World) (steps : List ShutdownStep) : World :=
  steps.foldl World.applyStep w

/-- The SIGTERM handler of `app.ts` lines 190-198: await
`whatsAppService.shutdown()`, await `databaseService.disconnect()`,
`server.close`, then `process.exit(0)` in its callback — each step
awaited before the next. -/
def sigtermSteps : List ShutdownStep :=
  [.drain, .dbDisconnect, .serverClose, .processExit]

/-- The SIGINT handler of `app.ts` lines 200-208 performs the same
sequence. -/
def sigintSteps : List ShutdownStep := sigtermSteps

/-! ### Helper lemmas -/

/-- Mapping a function that never turns a non-`p` element into a `p`
element cannot increase a `countP`. -/
theorem countP_map_le {α : Type} (f : α → α) (p : α → Bool)
    (h : ∀ a, p (f a) = true → p a = true) :
    ∀ l : List α, (l.map f).countP p ≤ l.countP p := by
  intro l
  induction l with
  | nil => simp
  | cons a l ih =>
    simp only [List.map_cons, List.countP_cons]
    by_cases hfa : p (f a) = true
    · rw [if_pos hfa, if_pos (h a hfa)]
      omega
    · rw [if_neg hfa]
      split <;> omega

/-- Each lifecycle operation preserves the per-tenant active-supervisor
bound. -/
theorem applyOp_activeCount_le (reg : Registry) (op : RegOp)
    (h : ∀ t, reg.activeCount t ≤ 1) :
    ∀ t, (reg.applyOp op).activeCount t ≤ 1 := by
  intro t
  match op with
  | .start t' =>
    by_cases hact : reg.hasActive t' = true
    · have hss : reg.startSession t' = .error .AlreadyActive := by
        simp [Registry.startSession, hact]
      simp only [Registry.applyOp, hss]
      exact h t
    · have hss : reg.startSession t' =
          .ok (⟨⟨t', .INITIALIZING, false⟩ :: reg.sups⟩, .INITIALIZING) := by
        simp [Registry.startSession, hact]
      simp only [Registry.applyOp, hss]
      simp only [Registry.activeCount, List.countP_cons]
      by_cases ht : t' = t
      · subst ht
        have hzero :
            reg.sups.countP (fun s => decide (s.tenant = t') && s.isActive) = 0 := by
          apply List.countP_eq_zero.mpr
          intro s hs
          intro hp
          exact hact (List.any_eq_true.mpr ⟨s, hs, hp⟩)
        rw [hzero]
        split <;> omega
      · have hp : (decide (Supervisor.tenant ⟨t', .INITIALIZING, false⟩ = t) &&
            Supervisor.isActive ⟨t', .INITIALIZING, false⟩) = false := by
          simp [ht]
        rw [hp, if_neg (by decide)]
        have := h t
        simp only [Registry.activeCount] at this
        omega
  | .stop t' logout =>
    have hss : reg.applyOp (.stop t' logout) = ⟨reg.sups.map (fun s =>
        if (decide (s.tenant = t') && s.isActive) = true then
          { s with state := .TERMINATED, credsDiscarded := s.credsDiscarded || logout }
        else s)⟩ := by
      simp [Registry.applyOp, Registry.stopSession]
    rw [hss]
    refine le_trans (countP_map_le _ _ ?_ reg.sups) (h t)
    intro s hp
    by_cases hc : (decide (s.tenant = t') && s.isActive) = true
    · rw [if_pos hc] at hp
      simp [Supervisor.isActive, SessState.isTerminal] at hp
    · rwa [if_neg hc] at hp
  | .internal t' next =>
    simp only [Registry.applyOp, Registry.internalStep]
    refine le_trans (countP_map_le _ _ ?_ reg.sups) (h t)
    intro s hp
    by_cases hc : (decide (s.tenant = t') && s.isActive && allowedTransition s.state next) = true
    · rw [if_pos hc] at hp
      simp only [Bool.and_eq_true, decide_eq_true_eq] at hc hp ⊢
      exact ⟨hp.1, hc.1.2⟩
    · rwa [if_neg hc] at hp

/-- The active-supervisor bound holds along any run. -/
theorem run_activeCount_le (ops : List RegOp) :
    ∀ reg : Registry, (∀ t, reg.activeCount t ≤ 1) →
      ∀ t, (ops.foldl Registry.applyOp reg).activeCount t ≤ 1 := by
  induction ops with
  | nil => intro reg h t; simpa using h t
  | cons op ops ih =>
    intro reg h t
    exact ih (reg.applyOp op) (applyOp_activeCount_le reg op h) t

/-- C2: in every reachable registry state, each tenant has at most one
active (non-terminal) ConnectionSupervisor registered; every lifecycle
operation (start, stop, internal supervisor transition) preserves
this. -/
theorem registry_at_most_one_active (ops : List RegOp) (t : String) :
    (Registry.run ops).activeCount t ≤ 1 := by
  refine run_activeCount_le ops Registry.init ?_ t
  intro t'
  simp [Registry.init, Registry.activeCount]

/-- C3: `startSession` fails with `AlreadyActive` exactly when an
active (non-terminal) supervisor is already registered for the tenant;
otherwise it registers a fresh supervisor and returns state
`INITIALIZING`; consequently a second `startSession` with no
intervening stop fails with `AlreadyActive`. -/
theorem startSession_contract (reg : Registry) (t : String) :
    (reg.startSession t = .error .AlreadyActive ↔ reg.hasActive t = true) ∧
    (∀ reg2 st, reg.startSession t = .ok (reg2, st) →
      st = .INITIALIZING ∧
      reg2.sups = ⟨t, .INITIALIZING, false⟩ :: reg.sups ∧
      reg2.startSession t = .error .AlreadyActive) := by
  constructor
  · constructor
    · intro h
      by_contra hact
      simp only [Bool.not_eq_true] at hact
      simp [Registry.startSession, hact] at h
    · intro h
      simp [Registry.startSession, h]
  · intro reg2 st h
    by_cases hact : reg.hasActive t = true
    · simp [Registry.startSession, hact] at h
    · simp only [Bool.not_eq_true] at hact
      simp only [Registry.startSession, hact, Bool.false_eq_true, if_false,
        Except.ok.injEq, Prod.mk.injEq] at h
      obtain ⟨hreg, hst⟩ := h
      refine ⟨hst.symm, by rw [← hreg], ?_⟩
      have : reg2.hasActive t = true := by
        rw [← hreg]
        simp [Registry.hasActive, Supervisor.isActive, SessState.isTerminal]
      simp [Registry.startSession, this]

/-- Witness for C3: the supervisor registered by a successful
`startSession` makes an immediate second `startSession` for the same
tenant fail with `AlreadyActive`. -/
theorem startSession_contract_witness :
    Registry.startSession ⟨[⟨"t1", .INITIALIZING, false⟩]⟩ "t1" =
      .error .AlreadyActive :=
  ((startSession_contract Registry.init "t1").2
    ⟨[⟨"t1", .INITIALIZING, false⟩]⟩ .INITIALIZING rfl).2.2

/-- C5: `stopSession` is idempotent — the first call succeeds, and
repeating it (with any logout flag) returns the same registry with the
same terminal states and no error. -/
theorem stopSession_idempotent (reg : Registry) (t : String) (l1 l2 : Bool) :
    ∃ reg1, reg.stopSession t l1 = .ok reg1 ∧
      reg1.stopSession t l2 = .ok reg1 := by
  refine ⟨_, rfl, ?_⟩
  simp only [Registry.stopSession, Except.ok.injEq, Registry.mk.injEq,
    List.map_map]
  apply List.map_congr_left
  intro s hs
  simp only [Function.comp_apply]
  by_cases hc : (decide (s.tenant = t) && s.isActive) = true
  · rw [if_pos hc, if_neg]
    simp [Supervisor.isActive, SessState.isTerminal]
  · rw [if_neg hc, if_neg hc]

/-! ### Reconnection theorems -/

/-- A supervisor that is not in `RECONNECTING` is left untouched by the
reconnect loop. -/
theorem runReconnect_not_reconnecting (p : ReconnectPolicy) (oracle : Nat → Bool)
    (s : ReconnState) (hs : s.state ≠ SessState.RECONNECTING) :
    ∀ k, runReconnect p oracle k s = s := by
  intro k
  induction k with
  | zero => rfl
  | succ k ih =>
    have hstep : reconnectStep p (oracle s.attempts) s = s := by
      unfold reconnectStep
      rw [if_pos hs]
    show runReconnect p oracle k (reconnectStep p (oracle s.attempts) s) = s
    rw [hstep, ih]

/-- If every reconnect attempt fails, the loop started with attempt
counter `a ≤ maxAttempts` and enough rounds ends `TERMINATED` with
`ReconnectAttemptsExhausted`. -/
theorem runReconnect_exhausts (p : ReconnectPolicy) (oracle : Nat → Bool)
    (ho : ∀ n, oracle n = false) :
    ∀ (k a : Nat) (e : Option SessError), a ≤ p.maxAttempts → p.maxAttempts < a + k →
      runReconnect p oracle k ⟨.RECONNECTING, a, e⟩ =
        ⟨.TERMINATED, p.maxAttempts, some .ReconnectAttemptsExhausted⟩ := by
  intro k
  induction k with
  | zero => intro a e ha hk; omega
  | succ k ih =>
    intro a e ha hk
    show runReconnect p oracle k
      (reconnectStep p (oracle a) ⟨.RECONNECTING, a, e⟩) = _
    by_cases hmax : p.maxAttempts ≤ a
    · have haeq : a = p.maxAttempts := le_antisymm ha hmax
      have hstep : reconnectStep p (oracle a) ⟨.RECONNECTING, a, e⟩ =
          ⟨.TERMINATED, a, some .ReconnectAttemptsExhausted⟩ := by
        unfold reconnectStep
        rw [if_neg (by simp), if_pos hmax]
      rw [hstep, haeq]
      exact runReconnect_not_reconnecting p oracle _ (by simp) k
    · have hstep : reconnectStep p (oracle a) ⟨.RECONNECTING, a, e⟩ =
          ⟨.RECONNECTING, a + 1, e⟩ := by
        unfold reconnectStep
        rw [if_neg (by simp), if_neg hmax, ho a, if_neg (by simp)]
      rw [hstep]
      exact ih (a + 1) e (by omega) (by omega)

/-- C4: reconnect delays follow exponential backoff — the delay before
attempt `n+1` is at least the delay before attempt `n`, and every
delay is capped by the configured maximum; and once the configured
maximum attempt count is used up with every attempt failing, the
session transitions to `TERMINATED` with the typed error
`ReconnectAttemptsExhausted` instead of retrying further. -/
theorem reconnect_backoff_bounded :
    (∀ (p : ReconnectPolicy) (n : Nat),
      reconnectDelay p n ≤ reconnectDelay p (n + 1) ∧
      reconnectDelay p n ≤ p.maxDelayMs) ∧
    (∀ (p : ReconnectPolicy) (oracle : Nat → Bool), (∀ n, oracle n = false) →
      runReconnect p oracle (p.maxAttempts + 1) reconnectEntry =
        ⟨.TERMINATED, p.maxAttempts, some .ReconnectAttemptsExhausted⟩) := by
  constructor
  · intro p n
    constructor
    · apply min_le_min _ le_rfl
      apply Nat.mul_le_mul_left
      exact Nat.pow_le_pow_right (by omega) (by omega)
    · exact Nat.min_le_right _ _
  · intro p oracle ho
    exact runReconnect_exhausts p oracle ho (p.maxAttempts + 1) 0 none
      (Nat.zero_le _) (by omega)

/-- Witness for C4: with base delay 1000ms, cap 30000ms and 3 maximum
attempts, delays are non-decreasing and the always-failing loop ends
`TERMINATED` with `ReconnectAttemptsExhausted` after the attempts are
used up. -/
theorem reconnect_backoff_bounded_witness :
    reconnectDelay ⟨1000, 30000, 3⟩ 0 ≤ reconnectDelay ⟨1000, 30000, 3⟩ 1 ∧
    runReconnect ⟨1000, 30000, 3⟩ (fun _ => false) 4 reconnectEntry =
      ⟨.TERMINATED, 3, some .ReconnectAttemptsExhausted⟩ :=
  ⟨(reconnect_backoff_bounded.1 ⟨1000, 30000, 3⟩ 0).1,
   reconnect_backoff_bounded.2 ⟨1000, 30000, 3⟩ (fun _ => false) (fun _ => rfl)⟩

/-! ### OutboundMessageQueue theorems -/

/-- C6: `enqueue` fails with `SessionNotConnected` whenever the session
is not `CONNECTED` and buffering was not requested; when buffering is
permitted (or the session is connected) the request is appended to the
bounded buffer, and `enqueue` fails with `QueueFull` exactly when the
buffer is already at capacity. -/
theorem enqueue_contract (q : OutQueue) (st : SessState) (allow : Bool)
    (r : OutboundRequest) :
    (st ≠ SessState.CONNECTED ∧ allow = false →
      q.enqueue st allow r = .error .SessionNotConnected) ∧
    (st = SessState.CONNECTED ∨ allow = true →
      (q.enqueue st allow r = .error .QueueFull ↔ q.capacity ≤ q.buffer.length) ∧
      (q.buffer.length < q.capacity →
        q.enqueue st allow r = .ok ⟨q.buffer ++ [r], q.capacity⟩)) := by
  constructor
  · intro h
    unfold OutQueue.enqueue
    rw [if_pos h]
  · intro h
    have hng : ¬(st ≠ SessState.CONNECTED ∧ allow = false) := by
      rcases h with h | h <;> simp [h]
    constructor
    · constructor
      · intro hq
        unfold OutQueue.enqueue at hq
        rw [if_neg hng] at hq
        by_cases hful : q.capacity ≤ q.buffer.length
        · exact hful
        · rw [if_neg hful] at hq
          exact absurd hq (by simp)
      · intro hful
        unfold OutQueue.enqueue
        rw [if_neg hng, if_pos hful]
    · intro hroom
      unfold OutQueue.enqueue
      rw [if_neg hng, if_neg (by omega)]

/-- Witness for C6: a disconnected session without buffering is
rejected with `SessionNotConnected`; a connected session with room
accepts the request; a full buffer rejects with `QueueFull`. -/
theorem enqueue_contract_witness :
    OutQueue.enqueue ⟨[], 2⟩ .PAIRING false ⟨"t", "hi", "k1"⟩ =
      .error .SessionNotConnected ∧
    OutQueue.enqueue ⟨[], 2⟩ .CONNECTED false ⟨"t", "hi", "k1"⟩ =
      .ok ⟨[⟨"t", "hi", "k1"⟩], 2⟩ ∧
    OutQueue.enqueue ⟨[⟨"t", "a", "k0"⟩], 1⟩ .RECONNECTING true ⟨"t", "hi", "k1"⟩ =
      .error .QueueFull :=
  ⟨(enqueue_contract ⟨[], 2⟩ .PAIRING false ⟨"t", "hi", "k1"⟩).1
      ⟨by simp, rfl⟩,
   ((enqueue_contract ⟨[], 2⟩ .CONNECTED false ⟨"t", "hi", "k1"⟩).2
      (Or.inl rfl)).2 (by simp),
   ((enqueue_contract ⟨[⟨"t", "a", "k0"⟩], 1⟩ .RECONNECTING true ⟨"t", "hi", "k1"⟩).2
      (Or.inr rfl)).1.mpr (by simp)⟩

/-! ### EventDispatcher theorems -/

/-- Appending the next element extends a contiguous range. -/
theorem range'_snoc (s l n : Nat) (h : n = s + l) :
    List.range' s l ++ [n] = List.range' s (l + 1) := by
  subst h
  rw [List.range'_concat]
  simp

/-- `ConsInv` is preserved when the dispatcher pushes the next
sequence number into a consumer's queue. -/
theorem consInv_push (c : ConsumerState) (n : Nat) (h : ConsInv c n) :
    ConsInv (c.push n) (n + 1) := by
  obtain ⟨h1, h2, h3⟩ := h
  unfold ConsumerState.push
  by_cases hroom : c.pending.length < c.capacity
  · rw [if_pos hroom]
    refine ⟨?_, ?_, ?_⟩
    · show (c.observed ++ (c.pending ++ [n])).Pairwise (· < ·)
      rw [← List.append_assoc]
      refine List.pairwise_append.mpr ⟨h1, List.pairwise_singleton _ _, ?_⟩
      intro a ha b hb
      rw [List.mem_singleton] at hb
      subst hb
      exact h2 a ha
    · intro x hx
      rw [← List.append_assoc] at hx
      rcases List.mem_append.mp hx with hx | hx
      · exact Nat.lt_succ_of_lt (h2 x hx)
      · rw [List.mem_singleton] at hx
        omega
    · intro hd
      obtain ⟨lo, lp, ho, hpr, hn⟩ := h3 hd
      refine ⟨lo, lp + 1, ho, ?_, by omega⟩
      rw [hpr]
      exact range'_snoc (1 + lo) lp n (by omega)
  · rw [if_neg hroom]
    split
    · exact ⟨h1, fun x hx => Nat.lt_succ_of_lt (h2 x hx),
        fun hd => absurd hd (Nat.succ_ne_zero _)⟩
    · rename_i s rest hpend
      refine ⟨?_, ?_, fun hd => absurd hd (Nat.succ_ne_zero _)⟩
      · show (c.observed ++ (rest ++ [n])).Pairwise (· < ·)
        rw [← List.append_assoc]
        refine List.pairwise_append.mpr ⟨?_, List.pairwise_singleton _ _, ?_⟩
        · have hsub : List.Sublist (c.observed ++ rest) (c.observed ++ c.pending) := by
            rw [hpend]
            exact List.Sublist.append_left (List.sublist_cons_self s rest) c.observed
          exact h1.sublist hsub
        · intro a ha b hb
          rw [List.mem_singleton] at hb
          subst hb
          apply h2
          rcases List.mem_append.mp ha with h' | h'
          · exact List.mem_append.mpr (Or.inl h')
          · rw [hpend]
            exact List.mem_append.mpr (Or.inr (List.mem_cons_of_mem s h'))
      · intro x hx
        rw [← List.append_assoc] at hx
        rcases List.mem_append.mp hx with hx | hx
        · refine Nat.lt_succ_of_lt (h2 x ?_)
          rcases List.mem_append.mp hx with h' | h'
          · exact List.mem_append.mpr (Or.inl h')
          · rw [hpend]
            exact List.mem_append.mpr (Or.inr (List.mem_cons_of_mem s h'))
        · rw [List.mem_singleton] at hx
          omega

/-- `ConsInv` is preserved when a consumer takes the next queued
event. -/
theorem consInv_consume (c : ConsumerState) (n : Nat) (h : ConsInv c n) :
    ConsInv c.consume n := by
  obtain ⟨h1, h2, h3⟩ := h
  unfold ConsumerState.consume
  split
  · exact ⟨h1, h2, h3⟩
  · rename_i s rest hpend
    refine ⟨?_, ?_, ?_⟩
    · show ((c.observed ++ [s]) ++ rest).Pairwise (· < ·)
      rw [List.append_assoc, List.singleton_append, ← hpend]
      exact h1
    · intro x hx
      apply h2
      rw [List.append_assoc, List.singleton_append, ← hpend] at hx
      exact hx
    · intro hd
      obtain ⟨lo, lp, ho, hpr, hn⟩ := h3 hd
      rw [hpend] at hpr
      cases lp with
      | zero => exact absurd hpr (List.cons_ne_nil s rest)
      | succ lp' =>
        have hcons : List.range' (1 + lo) (lp' + 1) =
            (1 + lo) :: List.range' (1 + lo + 1) lp' := rfl
        rw [hcons] at hpr
        injection hpr with hs hrest
        refine ⟨lo + 1, lp', ?_, ?_, by omega⟩
        · show c.observed ++ [s] = List.range' 1 (lo + 1)
          rw [ho, hs]
          exact range'_snoc 1 lo (1 + lo) (by omega)
        · show rest = List.range' (1 + (lo + 1)) lp'
          have harith : 1 + lo + 1 = 1 + (lo + 1) := by omega
          rw [hrest, harith]

/-- Every dispatcher or consumer step preserves the dispatcher
invariant. -/
theorem dispInv_applyOp (d : DispatchState) (op : DispatchOp) (h : DispInv d) :
    DispInv (d.applyOp op) := by
  obtain ⟨h1, h2, h3⟩ := h
  cases op with
  | dispatch =>
    exact ⟨consInv_push _ _ h1, consInv_push _ _ h2, consInv_push _ _ h3⟩
  | consumePersistence => exact ⟨consInv_consume _ _ h1, h2, h3⟩
  | consumeWebhook => exact ⟨h1, consInv_consume _ _ h2, h3⟩
  | consumeBroadcaster => exact ⟨h1, h2, consInv_consume _ _ h3⟩

/-- The dispatcher invariant holds along any run. -/
theorem dispInv_run (pc wc bc : Nat) (ops : List DispatchOp) :
    DispInv (DispatchState.run pc wc bc ops) := by
  have hinit : ∀ cap, ConsInv (ConsumerState.init cap) 1 := by
    intro cap
    exact ⟨List.Pairwise.nil, by simp [ConsumerState.init], fun _ => ⟨0, 0, rfl, rfl, rfl⟩⟩
  have hgen : ∀ (l : List DispatchOp) (d : DispatchState), DispInv d →
      DispInv (l.foldl DispatchState.applyOp d) := by
    intro l
    induction l with
    | nil => intro d h; exact h
    | cons op l ih => intro d h; exact ih _ (dispInv_applyOp d op h)
  exact hgen ops _ ⟨hinit pc, hinit wc, hinit bc⟩

/-- C1 counterexample: with the bounded-buffer back-pressure policy of
the specification (drop the oldest pending item of a full consumer
queue), a persistence consumer with capacity 1 that receives two
dispatched events and then consumes observes sequence number 2 without
ever having observed sequence number 1 — its observation sequence is
not contiguous, refuting the claim as stated. -/
theorem dispatch_contiguity_counterexample :
    (DispatchState.run 1 10 10
      [.dispatch, .dispatch, .consumePersistence]).persistence.observed = [2] ∧
    (DispatchState.run 1 10 10
      [.dispatch, .dispatch, .consumePersistence]).persistence.pending = [] ∧
    (DispatchState.run 1 10 10
      [.dispatch, .dispatch, .consumePersistence]).persistence.dropped = 1 ∧
    ¬ eventContiguous
      (DispatchState.run 1 10 10
        [.dispatch, .dispatch, .consumePersistence]).persistence.observed := by
  refine ⟨rfl, rfl, rfl, ?_⟩
  decide

/-- C1 (amended): for every session run and every registered consumer,
the observed sequence numbers are strictly increasing (no duplicate
and never a smaller number after a larger one); and as long as no
event has been dropped for that consumer by the bounded-buffer
back-pressure policy, the observation sequence is also contiguous —
every observed event is preceded by all events of smaller sequence
number. -/
theorem dispatch_order_amended (pc wc bc : Nat) (ops : List DispatchOp)
    (c : ConsumerState) (hc : c ∈ (DispatchState.run pc wc bc ops).consumers) :
    c.observed.Pairwise (· < ·) ∧
    (c.dropped = 0 → eventContiguous c.observed) := by
  have hinv := dispInv_run pc wc bc ops
  obtain ⟨h1, h2, h3⟩ := hinv
  have hone : ConsInv c (DispatchState.run pc wc bc ops).nextSeq := by
    simp only [DispatchState.consumers, List.mem_cons,
      List.not_mem_nil, or_false] at hc
    rcases hc with hc | hc | hc <;> rw [hc]
    · exact h1
    · exact h2
    · exact h3
  obtain ⟨hp, _, hr⟩ := hone
  constructor
  · exact hp.sublist (List.sublist_append_left _ _)
  · intro hd
    obtain ⟨lo, lp, ho, _, _⟩ := hr hd
    unfold eventContiguous
    rw [ho, List.length_range']

/-- Witness for C1 (amended): a capacity-10 persistence consumer that
receives one event and consumes it observes the strictly increasing,
contiguous sequence with no drops. -/
theorem dispatch_order_amended_witness :
    ((DispatchState.run 10 10 10
        [.dispatch, .consumePersistence]).persistence.observed).Pairwise (· < ·) ∧
    eventContiguous
      (DispatchState.run 10 10 10
        [.dispatch, .consumePersistence]).persistence.observed :=
  ⟨(dispatch_order_amended 10 10 10 [.dispatch, .consumePersistence] _
      (List.mem_cons_self _ _)).1,
   (dispatch_order_amended 10 10 10 [.dispatch, .consumePersistence] _
      (List.mem_cons_self _ _)).2 rfl⟩

/-! ### Graceful shutdown theorems -/

/-- C7: the SIGTERM handler (and the identical SIGINT handler) drains
every active ConnectionSupervisor — terminating it after flushing its
pending outbound acknowledgments and persisting its latest credential
state — and the drain completes before the process exits: along the
handler's step sequence, whenever the process has exited, the drain
has already happened. -/
theorem graceful_shutdown_drains (w : World) :
    (∀ s ∈ (w.runSteps sigtermSteps).registry.sups, s.isActive = false) ∧
    (∀ s ∈ w.registry.sups, s.isActive = true →
      s.tenant ∈ (w.runSteps sigtermSteps).flushedTenants ∧
      s.tenant ∈ (w.runSteps sigtermSteps).persistedTenants) ∧
    (w.runSteps sigtermSteps).exited = true ∧
    sigintSteps = sigtermSteps ∧
    (w.exited = false →
      ∀ pre, List.IsPrefix pre sigtermSteps → (w.runSteps pre).exited = true →
        (∀ s ∈ (w.runSteps pre).registry.sups, s.isActive = false) ∧
        (∀ s ∈ w.registry.sups, s.isActive = true →
          s.tenant ∈ (w.runSteps pre).flushedTenants)) := by
  have hterm : ∀ s ∈ (w.runSteps sigtermSteps).registry.sups, s.isActive = false := by
    intro s hs
    obtain ⟨s0, hs0, rfl⟩ := List.mem_map.mp hs
    by_cases h0 : s0.isActive = true
    · rw [if_pos h0]
      simp [Supervisor.isActive, SessState.isTerminal]
    · rw [if_neg h0]
      simpa using h0
  have hflush : ∀ s ∈ w.registry.sups, s.isActive = true →
      s.tenant ∈ (w.runSteps sigtermSteps).flushedTenants ∧
      s.tenant ∈ (w.runSteps sigtermSteps).persistedTenants := by
    intro s hs hact
    constructor <;>
      exact List.mem_append.mpr (Or.inr
        (List.mem_map.mpr ⟨s, List.mem_filter.mpr ⟨hs, hact⟩, rfl⟩))
  refine ⟨hterm, hflush, rfl, rfl, ?_⟩
  intro hw pre hpre hex
  obtain ⟨t, ht⟩ := hpre
  cases pre with
  | nil =>
    have : w.exited = true := hex
    rw [hw] at this
    exact absurd this (by simp)
  | cons a p1 =>
    injection ht with ha ht1
    subst ha
    cases p1 with
    | nil =>
      have : w.exited = true := hex
      rw [hw] at this
      exact absurd this (by simp)
    | cons b p2 =>
      injection ht1 with hb ht2
      subst hb
      cases p2 with
      | nil =>
        have : w.exited = true := hex
        rw [hw] at this
        exact absurd this (by simp)
      | cons c p3 =>
        injection ht2 with hc ht3
        subst hc
        cases p3 with
        | nil =>
          have : w.exited = true := hex
          rw [hw] at this
          exact absurd this (by simp)
        | cons d p4 =>
          injection ht3 with hd ht4
          subst hd
          cases p4 with
          | nil => exact ⟨hterm, fun s hs hact => (hflush s hs hact).1⟩
          | cons e p5 => exact absurd ht4 (List.cons_ne_nil _ _)

/-- Witness for C7: a world with one connected supervisor for tenant
`t1` ends fully drained and exited, with `t1` flushed and persisted. -/
theorem graceful_shutdown_drains_witness :
    (∀ s ∈ ((⟨⟨[⟨"t1", .CONNECTED, false⟩]⟩, [], [], true, true, false⟩ :
        World).runSteps sigtermSteps).registry.sups, s.isActive = false) ∧
    "t1" ∈ ((⟨⟨[⟨"t1", .CONNECTED, false⟩]⟩, [], [], true, true, false⟩ :
        World).runSteps sigtermSteps).flushedTenants :=
  ⟨(graceful_shutdown_drains
      ⟨⟨[⟨"t1", .CONNECTED, false⟩]⟩, [], [], true, true, false⟩).1,
   ((graceful_shutdown_drains
      ⟨⟨[⟨"t1", .CONNECTED, false⟩]⟩, [], [], true, true, false⟩).2.1
      ⟨"t1", .CONNECTED, false⟩ (List.mem_cons_self _ _) rfl).1⟩

/-! ### HTTP layer theorems -/

/-- C8: under the rate limit, every request to a route mounted under
`/api/sessions`, `/api/messages`, `/api/chats`, `/api/groups`,
`/api/contacts`, `/api/media`, `/api/business` or `/api/webhooks`
passes the API-key auth middleware before its handler (an invalid key
is rejected, a valid key reaches the mounted router), while
`/api/auth`, `/dashboard`, `/health` and `/api-docs` are served
without an API key. -/
theorem auth_route_coverage (sub : List String) (hits : Nat)
    (h : hits < rateLimitMax) :
    (processRequest ⟨"api" :: "sessions" :: sub, false, hits⟩ = .unauthorized ∧
     processRequest ⟨"api" :: "sessions" :: sub, true, hits⟩ = .handled .sessionRoutes) ∧
    (processRequest ⟨"api" :: "messages" :: sub, false, hits⟩ = .unauthorized ∧
     processRequest ⟨"api" :: "messages" :: sub, true, hits⟩ = .handled .messageRoutes) ∧
    (processRequest ⟨"api" :: "chats" :: sub, false, hits⟩ = .unauthorized ∧
     processRequest ⟨"api" :: "chats" :: sub, true, hits⟩ = .handled .chatRoutes) ∧
    (processRequest ⟨"api" :: "groups" :: sub, false, hits⟩ = .unauthorized ∧
     processRequest ⟨"api" :: "groups" :: sub, true, hits⟩ = .handled .groupRoutes) ∧
    (processRequest ⟨"api" :: "contacts" :: sub, false, hits⟩ = .unauthorized ∧
     processRequest ⟨"api" :: "contacts" :: sub, true, hits⟩ = .handled .contactRoutes) ∧
    (processRequest ⟨"api" :: "media" :: sub, false, hits⟩ = .unauthorized ∧
     processRequest ⟨"api" :: "media" :: sub, true, hits⟩ = .handled .mediaRoutes) ∧
    (processRequest ⟨"api" :: "business" :: sub, false, hits⟩ = .unauthorized ∧
     processRequest ⟨"api" :: "business" :: sub, true, hits⟩ = .handled .businessRoutes) ∧
    (processRequest ⟨"api" :: "webhooks" :: sub, false, hits⟩ = .unauthorized ∧
     processRequest ⟨"api" :: "webhooks" :: sub, true, hits⟩ = .handled .webhookRoutes) ∧
    processRequest ⟨"api" :: "auth" :: sub, false, hits⟩ = .handled .authRoutes ∧
    processRequest ⟨"dashboard" :: sub, false, hits⟩ = .handled .dashboardRoutes ∧
    processRequest ⟨"health" :: sub, false, hits⟩ = .handled .health ∧
    processRequest ⟨"api-docs" :: sub, false, hits⟩ = .handled .apiDocs := by
  have hlim : ∀ (p : List String) (k : Bool),
      processRequest ⟨p, k, hits⟩ =
        match resolveMount p with
        | none => .fallthrough
        | some m => if m.requiresAuth && !k then .unauthorized else .handled m.handler := by
    intro p k
    unfold processRequest
    rw [if_neg (Nat.not_le.mpr h)]
  refine ⟨⟨?_, ?_⟩, ⟨?_, ?_⟩, ⟨?_, ?_⟩, ⟨?_, ?_⟩, ⟨?_, ?_⟩, ⟨?_, ?_⟩, ⟨?_, ?_⟩,
    ⟨?_, ?_⟩, ?_, ?_, ?_, ?_⟩ <;> rw [hlim] <;> rfl

/-- Witness for C8: at the mount roots with zero prior hits, protected
routes reject a missing key and unprotected routes are served. -/
theorem auth_route_coverage_witness :
    processRequest ⟨["api", "sessions"], false, 0⟩ = .unauthorized ∧
    processRequest ⟨["health"], false, 0⟩ = .handled .health :=
  ⟨(auth_route_coverage [] 0 (by decide)).1.1,
   (auth_route_coverage [] 0 (by decide)).2.2.2.2.2.2.2.2.2.2.1⟩

/-- C9: `/health` responds 200 even when the database health check
throws — the body then reports status `degraded` and database
`disconnected` — and 503 is returned exactly when assembling the
health response itself throws. -/
theorem health_degraded_still_200 :
    healthHandler false .throws = ⟨200, "degraded", some "disconnected"⟩ ∧
    (∀ (a : Bool) (db : DbCheck), (healthHandler a db).httpStatus = 503 ↔ a = true) ∧
    (∀ db : DbCheck, (healthHandler false db).httpStatus = 200) := by
  refine ⟨rfl, ?_, ?_⟩
  · intro a db
    cases a <;> cases db <;> simp [healthHandler]
  · intro db
    cases db <;> rfl

/-- C10: the limiter is configured with a 15-minute window and a
100-request ceiling, it is registered before every route mount
(including `/health`, `/api-docs`, the dashboard and all `/api`
routes), and a request from an IP that has exhausted the window's
quota is rejected with the configured message instead of reaching any
route handler. -/
theorem rate_limit_global :
    rateLimitWindowMs = 15 * 60 * 1000 ∧
    rateLimitMax = 100 ∧
    (∀ r ∈ [Registration.apiDocsMount, Registration.healthRoute,
        Registration.authMount, Registration.sessionsMount,
        Registration.messagesMount, Registration.chatsMount,
        Registration.groupsMount, Registration.contactsMount,
        Registration.mediaMount, Registration.businessMount,
        Registration.webhooksMount, Registration.dashboardMount,
        Registration.staticMount, Registration.rootRoute],
      registrationOrder.indexOf Registration.limiter < registrationOrder.indexOf r) ∧
    (∀ req : HttpRequest, rateLimitMax ≤ req.priorHitsInWindow →
      processRequest req =
        .rateLimited "Too many requests from this IP, please try again later.") := by
  refine ⟨rfl, rfl, by decide, ?_⟩
  intro req hreq
  unfold processRequest
  rw [if_pos hreq]
  rfl

/-- Witness for C10: the 101st request in a window to `/health` is
rejected with the configured message, and the limiter is registered
before the `/health` route. -/
theorem rate_limit_global_witness :
    processRequest ⟨["health"], true, 100⟩ =
      .rateLimited "Too many requests from this IP, please try again later." ∧
    registrationOrder.indexOf Registration.limiter <
      registrationOrder.indexOf Registration.healthRoute :=
  ⟨rate_limit_global.2.2.2 ⟨["health"], true, 100⟩ (by decide),
   rate_limit_global.2.2.1 Registration.healthRoute (by decide)⟩

